import Mathlib

/-!
A shallow embedding of the constant-expression evaluation context
(`EvalContext` from `EvalContext.h` in the slang HDL compiler) and theorems
checking its specification.  Methods whose bodies appear inline in the
header are translated directly; methods only declared there are modelled
from the specification and carry a doc comment saying so.
-/

namespace SlangEval

/-- Source locations are opaque provenance data; modelled by naturals. -/
abbrev SourceLocation := Nat

/-- Lookup locations are opaque provenance data used only for diagnostics. -/
abbrev LookupLoc := Nat

/-- A source range.  A default-constructed range (written `{}` in the
source) is the empty range, modelled with both end points zero. -/
structure SourceRange where
  startLoc : SourceLocation
  endLoc : SourceLocation
deriving Repr, DecidableEq

/-- The empty source range, i.e. a default-constructed `SourceRange`. -/
def SourceRange.empty : SourceRange := ⟨0, 0⟩

/-- Symbols (`ValueSymbol`, `SubroutineSymbol`, block `Symbol`) are opaque
identities; modelled by naturals.  A nullable symbol pointer is an
`Option Symbol`, with `none` for `nullptr`. -/
abbrev Symbol := Nat

/-- The opaque `ConstantValue` type.  Only what this core observes is
modelled: the invalid sentinel (a failed result), the distinguished
unbounded-placeholder value, integers, and queues. -/
inductive ConstantValue where
  | invalid
  | unboundedPlaceholder
  | intVal (n : Int)
  | queue (elems : List Int)
deriving Repr, DecidableEq

/-- Bit value of `EvalFlags::IsScript` (`1 << 0`). -/
def EvalFlags.IsScript : Nat := 1

/-- Bit value of `EvalFlags::CacheResults` (`1 << 1`). -/
def EvalFlags.CacheResults : Nat := 2

/-- Bit value of `EvalFlags::SpecparamsAllowed` (`1 << 2`). -/
def EvalFlags.SpecparamsAllowed : Nat := 4

/-- Bit value of `EvalFlags::CovergroupExpr` (`1 << 3`). -/
def EvalFlags.CovergroupExpr : Nat := 8

/-- Bit value of `EvalFlags::AllowUnboundedPlaceholder` (`1 << 4`). -/
def EvalFlags.AllowUnboundedPlaceholder : Nat := 16

/-- `bitmask<EvalFlags>::has`: true when some bit of `m` is set. -/
def hasFlag (flags m : Nat) : Bool := flags &&& m != 0

/-- `flags |= m` on the `uint8_t` bitmask. -/
def setFlag (m flags : Nat) : Nat := flags ||| m

/-- `flags &= ~m` on the `uint8_t` bitmask: the complement is taken within
the eight bits of the underlying `uint8_t`. -/
def clearFlag (m flags : Nat) : Nat := flags &&& (255 ^^^ m)

/-- Diagnostic codes observed by this core. -/
inductive DiagCode where
  | constEvalExceededMaxSteps
  | constEvalExceededMaxCallDepth
  | constEvalUnboundedNotAllowed
deriving Repr, DecidableEq

/-- One diagnostic record: a code and the location it was reported at. -/
structure Diag where
  code : DiagCode
  loc : SourceLocation
deriving Repr, DecidableEq

/-- One call-stack frame (`EvalContext::Frame`): the map of temporaries
keyed by value-symbol identity, the subroutine being executed (`none` for a
synthetic empty frame, i.e. `nullptr`), and call-site provenance. -/
structure Frame where
  temporaries : List (Symbol × ConstantValue) := []
  subroutine : Option Symbol := none
  callLocation : SourceLocation := 0
  lookupLocation : LookupLoc := 0
deriving Repr, DecidableEq

/-- The evaluation context.  `stack` holds the call frames with the
innermost frame (the source's `stack.back()`) first.  `maxSteps` and
`maxDepth` are the configured step and call-depth limits, supplied by the
surrounding compilation's options and fixed for the context's lifetime.
`topLevel` is the synthetic top-level scope the specification says
`createLocal`/`findLocal` use when no frame is active. -/
structure EvalContext where
  flags : Nat := 0
  steps : Nat := 0
  disableTarget : Option Symbol := none
  queueTarget : Option ConstantValue := none
  stack : List Frame := []
  lvalStack : List Nat := []
  diags : List Diag := []
  disableRange : SourceRange := SourceRange.empty
  maxSteps : Nat
  maxDepth : Nat
  topLevel : List (Symbol × ConstantValue) := []
deriving Repr, DecidableEq

/-- `EvalContext::inFunction`: true iff the frame stack is non-empty. -/
def inFunction (ctx : EvalContext) : Bool := !ctx.stack.isEmpty

/-- `EvalContext::cacheResults`: `!inFunction() && flags.has(CacheResults)`. -/
def cacheResults (ctx : EvalContext) : Bool :=
  !inFunction ctx && hasFlag ctx.flags EvalFlags.CacheResults

/-- `EvalContext::topFrame` (`stack.back()`), returned as `none` when the
stack is empty (where the source has undefined behaviour). -/
def topFrame? (ctx : EvalContext) : Option Frame := ctx.stack.head?

/-- `EvalContext::getDisableTarget`. -/
def getDisableTarget (ctx : EvalContext) : Option Symbol := ctx.disableTarget

/-- `EvalContext::getDisableRange`. -/
def getDisableRange (ctx : EvalContext) : SourceRange := ctx.disableRange

/-- `EvalContext::setDisableTarget`: stores both arguments. -/
def setDisableTarget (symbol : Option Symbol) (range : SourceRange)
    (ctx : EvalContext) : EvalContext :=
  { ctx with disableTarget := symbol, disableRange := range }

/-- `EvalContext::setQueueTarget`. -/
def setQueueTarget (cv : Option ConstantValue) (ctx : EvalContext) : EvalContext :=
  { ctx with queueTarget := cv }

/-- `EvalContext::getQueueTarget`. -/
def getQueueTarget (ctx : EvalContext) : Option ConstantValue := ctx.queueTarget

/-- `EvalContext::addDiag`: appends a diagnostic to the log. -/
def addDiag (code : DiagCode) (loc : SourceLocation) (ctx : EvalContext) :
    EvalContext :=
  { ctx with diags := ctx.diags ++ [⟨code, loc⟩] }

/-- Modelled from the spec: the body of `EvalContext::reset` is not among
the given sources (only its declaration).  It "clears the frame stack,
l-value stack, step counter, diagnostics, and signal state back to a
freshly constructed instance"; flags and configured limits are constructor
arguments and so survive. -/
def reset (ctx : EvalContext) : EvalContext :=
  { ctx with steps := 0, disableTarget := none, queueTarget := none,
             stack := [], lvalStack := [], diags := [],
             disableRange := SourceRange.empty, topLevel := [] }

/-- Modelled from the spec: the body of `EvalContext::step` is not among
the given sources.  It "increments the shared step counter and, if it
exceeds a configured maximum across the entire nested evaluation (not per
frame), emits a step-limit diagnostic at `location` and returns a failure
signal". -/
def step (loc : SourceLocation) (ctx : EvalContext) : Bool × EvalContext :=
  let next := { ctx with steps := ctx.steps + 1 }
  if next.steps > next.maxSteps then
    (false, addDiag DiagCode.constEvalExceededMaxSteps loc next)
  else
    (true, next)

/-- Runs `step` the given number of times, keeping only the context. -/
def stepN (loc : SourceLocation) : Nat → EvalContext → EvalContext
  | 0, ctx => ctx
  | n + 1, ctx => stepN loc n (step loc ctx).2

/-- Modelled from the spec: the body of `EvalContext::pushFrame` is not
among the given sources.  It "fails (returns a failure signal, emits a
recursion-depth diagnostic) if the resulting stack depth would exceed a
configured maximum call-depth"; on success the new frame becomes current. -/
def pushFrame (subroutine : Symbol) (callLocation : SourceLocation)
    (lookupLocation : LookupLoc) (ctx : EvalContext) : Bool × EvalContext :=
  if ctx.stack.length ≥ ctx.maxDepth then
    (false, addDiag DiagCode.constEvalExceededMaxCallDepth callLocation ctx)
  else
    (true, { ctx with
      stack := { temporaries := [], subroutine := some subroutine,
                 callLocation := callLocation,
                 lookupLocation := lookupLocation } :: ctx.stack })

/-- Modelled from the spec: the body of `EvalContext::pushEmptyFrame` is
not among the given sources.  It "pushes a frame with no subroutine
identity"; its declaration returns `void`, so there is no failure signal
and no depth check. -/
def pushEmptyFrame (ctx : EvalContext) : EvalContext :=
  { ctx with stack := {} :: ctx.stack }

/-- Modelled from the spec: the body of `EvalContext::popFrame` is not
among the given sources.  It "removes the current frame unconditionally";
popping an empty stack is a caller bug (the source aborts), modelled as
leaving the empty stack unchanged. -/
def popFrame (ctx : EvalContext) : EvalContext :=
  { ctx with stack := ctx.stack.tail }

/-- Inserts or overwrites the binding for `s` in an association list. -/
def insertLocal (s : Symbol) (v : ConstantValue) :
    List (Symbol × ConstantValue) → List (Symbol × ConstantValue)
  | [] => [(s, v)]
  | (s', v') :: rest =>
    if s' = s then (s, v) :: rest else (s', v') :: insertLocal s v rest

/-- Looks up the binding for `s` in an association list. -/
def lookupLocal (s : Symbol) : List (Symbol × ConstantValue) → Option ConstantValue
  | [] => none
  | (s', v) :: rest => if s' = s then some v else lookupLocal s rest

/-- Modelled from the spec: the body of `EvalContext::createLocal` is not
among the given sources.  It "allocates storage for a local variable in the
current frame (or a synthetic top-level scope if no frame is active)";
re-declaring the same identity in the same frame overwrites prior
storage. -/
def createLocal (s : Symbol) (v : ConstantValue) (ctx : EvalContext) :
    EvalContext :=
  match ctx.stack with
  | [] => { ctx with topLevel := insertLocal s v ctx.topLevel }
  | fr :: rest =>
    { ctx with stack :=
        { fr with temporaries := insertLocal s v fr.temporaries } :: rest }

/-- Modelled from the spec: the body of `EvalContext::findLocal` is not
among the given sources.  It "searches the innermost active frame's storage
(constant functions do not see outer frames' locals) and, if no frame is
active, a synthetic top-level scope; returns a reference to storage or a
not-found signal" — the not-found signal (`nullptr`) is `none`. -/
def findLocal (s : Symbol) (ctx : EvalContext) : Option ConstantValue :=
  match ctx.stack with
  | [] => lookupLocal s ctx.topLevel
  | fr :: _ => lookupLocal s fr.temporaries

/-- The state `disableCaching`'s scope guard captures when constructed:
the saved cache-results bit and whether the scope pushed an empty frame. -/
structure CacheGuard where
  saved : Bool
  pushed : Bool
deriving Repr, DecidableEq

/-- Entry half of `EvalContext::disableCaching` (inline in the header):
the guard captures `saved = flags.has(CacheResults)` and
`pushed = !inFunction()` at construction; then the cache-results flag is
cleared and, when no frame is active, an empty frame is pushed. -/
def disableCachingEnter (ctx : EvalContext) : CacheGuard × EvalContext :=
  let g : CacheGuard :=
    { saved := hasFlag ctx.flags EvalFlags.CacheResults,
      pushed := !inFunction ctx }
  let cleared := { ctx with flags := clearFlag EvalFlags.CacheResults ctx.flags }
  if inFunction cleared then (g, cleared) else (g, pushEmptyFrame cleared)

/-- Exit half of `EvalContext::disableCaching`: the scope guard's callback,
run on every exit path, pops the frame it pushed (if any) and restores the
saved cache-results bit. -/
def disableCachingExit (g : CacheGuard) (ctx : EvalContext) : EvalContext :=
  let popped := if g.pushed then popFrame ctx else ctx
  if g.saved then
    { popped with flags := setFlag EvalFlags.CacheResults popped.flags }
  else
    { popped with flags := clearFlag EvalFlags.CacheResults popped.flags }

/-- Resolves an unbounded literal against a queue target value. -/
def resolveUnbounded : ConstantValue → ConstantValue
  | ConstantValue.queue elems => ConstantValue.intVal elems.length
  | _ => ConstantValue.invalid

/-- Modelled from the spec: the evaluator of an unbounded `$` literal is
not among the given sources.  "Absent a target, evaluating an unbounded
literal is an error unless a specific allow-placeholder flag is set, in
which case it evaluates to a distinguished placeholder value instead of
failing"; with a target, the literal resolves its length against the
target queue. -/
def evalUnboundedLiteral (loc : SourceLocation) (ctx : EvalContext) :
    ConstantValue × EvalContext :=
  match getQueueTarget ctx with
  | some cv => (resolveUnbounded cv, ctx)
  | none =>
    if hasFlag ctx.flags EvalFlags.AllowUnboundedPlaceholder then
      (ConstantValue.unboundedPlaceholder, ctx)
    else
      (ConstantValue.invalid, addDiag DiagCode.constEvalUnboundedNotAllowed loc ctx)

/-- One call-stack operation, for stating the balanced push/pop property. -/
inductive StackOp where
  | push (subroutine : Symbol) (callLocation : SourceLocation) (lookupLocation : LookupLoc)
  | pushEmpty
  | pop
deriving Repr, DecidableEq

/-- True for the two push operations. -/
def StackOp.isPush : StackOp → Bool
  | StackOp.push _ _ _ => true
  | StackOp.pushEmpty => true
  | StackOp.pop => false

/-- Applies one stack operation, discarding `pushFrame`'s success flag. -/
def applyOp (ctx : EvalContext) : StackOp → EvalContext
  | StackOp.push s cl ll => (pushFrame s cl ll ctx).2
  | StackOp.pushEmpty => pushEmptyFrame ctx
  | StackOp.pop => popFrame ctx

/-- Applies a sequence of stack operations left to right. -/
def applyOps (ctx : EvalContext) : List StackOp → EvalContext
  | [] => ctx
  | op :: rest => applyOps (applyOp ctx op) rest

/-- Balanced sequences of push/pop operations: well-nested, each pop
matching an earlier push. -/
inductive Balanced : List StackOp → Prop
  | nil : Balanced []
  | wrap (op : StackOp) (s : List StackOp) : op.isPush = true → Balanced s →
      Balanced (op :: s ++ [StackOp.pop])
  | append (s t : List StackOp) : Balanced s → Balanced t → Balanced (s ++ t)

/-- A sample context with no flags, step limit 5 and depth limit 3. -/
def ctxEmpty : EvalContext := { maxSteps := 5, maxDepth := 3 }

/-- A sample context with caching enabled and an empty stack. -/
def ctxCached : EvalContext :=
  { flags := EvalFlags.CacheResults, maxSteps := 5, maxDepth := 3 }

/-- A sample context with caching enabled and one active frame. -/
def ctxInFrame : EvalContext :=
  { flags := EvalFlags.CacheResults, stack := [{}], maxSteps := 5, maxDepth := 3 }

/-- A sample context with the allow-placeholder flag and no queue target. -/
def ctxPlaceholder : EvalContext :=
  { flags := EvalFlags.AllowUnboundedPlaceholder, maxSteps := 5, maxDepth := 3 }

/-- A sample context whose stack is at the configured depth limit. -/
def ctxAtLimit : EvalContext :=
  { stack := [{}], maxSteps := 5, maxDepth := 1 }

/-- Clearing the cache-results bit makes `hasFlag` for it false. -/
theorem hasFlag_clearFlag_CR (F : Nat) :
    hasFlag (clearFlag EvalFlags.CacheResults F) EvalFlags.CacheResults = false := by
  unfold hasFlag clearFlag EvalFlags.CacheResults
  have h : ((255 : Nat) ^^^ 2) &&& 2 = 0 := by decide
  rw [Nat.land_assoc, h]
  simp

/-- Setting the cache-results bit makes `hasFlag` for it true. -/
theorem hasFlag_setFlag_CR (F : Nat) :
    hasFlag (setFlag EvalFlags.CacheResults F) EvalFlags.CacheResults = true := by
  unfold hasFlag setFlag EvalFlags.CacheResults
  have h2 : (2 : Nat) = 2 ^ 1 := by norm_num
  rw [h2, Nat.and_two_pow]
  have ht : (F ||| 2 ^ 1).testBit 1 = true := by
    rw [Nat.testBit_lor]
    have : (2 ^ 1 : Nat).testBit 1 = true := by decide
    rw [this, Bool.or_true]
  rw [ht]
  decide

/-- The second component of `step` always has the counter incremented. -/
theorem step_snd_steps (loc : SourceLocation) (ctx : EvalContext) :
    (step loc ctx).2.steps = ctx.steps + 1 := by
  simp only [step, addDiag]
  split <;> rfl

/-- `step` never changes the configured step limit. -/
theorem step_snd_maxSteps (loc : SourceLocation) (ctx : EvalContext) :
    (step loc ctx).2.maxSteps = ctx.maxSteps := by
  simp only [step, addDiag]
  split <;> rfl

/-- After `n` calls to `step` the counter has grown by exactly `n`. -/
theorem stepN_steps (loc : SourceLocation) (n : Nat) (ctx : EvalContext) :
    (stepN loc n ctx).steps = ctx.steps + n := by
  induction n generalizing ctx with
  | zero => rfl
  | succ n ih =>
    show (stepN loc n (step loc ctx).2).steps = ctx.steps + (n + 1)
    rw [ih, step_snd_steps]
    omega

/-- `stepN` never changes the configured step limit. -/
theorem stepN_maxSteps (loc : SourceLocation) (n : Nat) (ctx : EvalContext) :
    (stepN loc n ctx).maxSteps = ctx.maxSteps := by
  induction n generalizing ctx with
  | zero => rfl
  | succ n ih =>
    show (stepN loc n (step loc ctx).2).maxSteps = ctx.maxSteps
    rw [ih, step_snd_maxSteps]

/-- C1: with a fresh counter, `N` calls to `step` without a `reset` leave
the shared step counter at exactly `N`; the counter lives in the context
and not in any frame (`pushEmptyFrame`/`popFrame` leave it untouched);
while `N` is below the configured limit the next call succeeds, and once
`N` reaches or exceeds it the next call emits the step-limit diagnostic at
the given location and returns the failure signal — so every subsequent
call keeps failing — until `reset` clears the counter, after which `step`
succeeds again. -/
theorem step_limit_C1 (ctx : EvalContext) (loc : SourceLocation) (N : Nat)
    (h : ctx.steps = 0) :
    (stepN loc N ctx).steps = N ∧
    (pushEmptyFrame (stepN loc N ctx)).steps = N ∧
    (popFrame (stepN loc N ctx)).steps = N ∧
    (N < ctx.maxSteps → (step loc (stepN loc N ctx)).1 = true) ∧
    (N ≥ ctx.maxSteps →
      (step loc (stepN loc N ctx)).1 = false ∧
      (step loc (stepN loc N ctx)).2.diags =
        (stepN loc N ctx).diags ++ [⟨DiagCode.constEvalExceededMaxSteps, loc⟩]) ∧
    (reset (stepN loc N ctx)).steps = 0 ∧
    (0 < ctx.maxSteps → (step loc (reset (stepN loc N ctx))).1 = true) := by
  have hs : (stepN loc N ctx).steps = N := by rw [stepN_steps, h]; omega
  have hm : (stepN loc N ctx).maxSteps = ctx.maxSteps := stepN_maxSteps loc N ctx
  refine ⟨hs, hs, hs, ?_, ?_, rfl, ?_⟩
  · intro hlt
    have hc : ¬((stepN loc N ctx).steps + 1 > (stepN loc N ctx).maxSteps) := by
      rw [hs, hm]; omega
    simp [step, hc]
  · intro hge
    have hc : (stepN loc N ctx).steps + 1 > (stepN loc N ctx).maxSteps := by
      rw [hs, hm]; omega
    simp [step, hc, addDiag]
  · intro hpos
    have hc : ¬((reset (stepN loc N ctx)).steps + 1 > (reset (stepN loc N ctx)).maxSteps) := by
      have : (reset (stepN loc N ctx)).maxSteps = ctx.maxSteps := hm
      rw [this]
      show ¬(0 + 1 > ctx.maxSteps)
      omega
    simp [step, hc]

/-- Witness for C1: with step limit 5, six calls leave the counter at 6 and
the next call fails. -/
theorem step_limit_C1_witness :
    (stepN 3 6 ctxEmpty).steps = 6 ∧ (step 3 (stepN 3 6 ctxEmpty)).1 = false :=
  ⟨(step_limit_C1 ctxEmpty 3 6 rfl).1,
   ((step_limit_C1 ctxEmpty 3 6 rfl).2.2.2.2.1 (by decide)).1⟩

/-- C2: with the frame stack already at the configured maximum depth, the
next `pushFrame` returns the failure signal, records exactly one
recursion-depth diagnostic, and leaves the existing stack unchanged: the
depth still equals the maximum and `topFrame` still refers to the most
recently pushed frame. -/
theorem pushFrame_at_limit_C2 (ctx : EvalContext) (s : Symbol)
    (cl : SourceLocation) (ll : LookupLoc)
    (h : ctx.stack.length = ctx.maxDepth) :
    (pushFrame s cl ll ctx).1 = false ∧
    (pushFrame s cl ll ctx).2.stack = ctx.stack ∧
    (pushFrame s cl ll ctx).2.diags =
      ctx.diags ++ [⟨DiagCode.constEvalExceededMaxCallDepth, cl⟩] ∧
    (pushFrame s cl ll ctx).2.stack.length = ctx.maxDepth ∧
    topFrame? (pushFrame s cl ll ctx).2 = topFrame? ctx := by
  have hc : ctx.stack.length ≥ ctx.maxDepth := Nat.le_of_eq h.symm
  simp [pushFrame, hc, addDiag, topFrame?, h]

/-- Witness for C2: a context with one frame and depth limit 1 rejects the
next push. -/
theorem pushFrame_at_limit_C2_witness :
    (pushFrame 0 0 0 ctxAtLimit).1 = false ∧
    (pushFrame 0 0 0 ctxAtLimit).2.stack = ctxAtLimit.stack :=
  ⟨(pushFrame_at_limit_C2 ctxAtLimit 0 0 0 (by decide)).1,
   (pushFrame_at_limit_C2 ctxAtLimit 0 0 0 (by decide)).2.1⟩

/-- C3: `cacheResults` is false whenever a frame is active, regardless of
the cache-results flag, and true exactly when the frame stack is empty and
the flag is set. -/
theorem cacheResults_spec_C3 (ctx : EvalContext) :
    (inFunction ctx = true → cacheResults ctx = false) ∧
    (cacheResults ctx = true ↔
      ctx.stack = [] ∧ hasFlag ctx.flags EvalFlags.CacheResults = true) := by
  constructor
  · intro hf
    simp [cacheResults, hf]
  · simp [cacheResults, inFunction, Bool.and_eq_true, List.isEmpty_iff]

/-- Witness for C3: an active frame suppresses caching even with the flag
set, and an empty stack with the flag set enables it. -/
theorem cacheResults_spec_C3_witness :
    cacheResults ctxInFrame = false ∧ cacheResults ctxCached = true :=
  ⟨(cacheResults_spec_C3 ctxInFrame).1 rfl,
   (cacheResults_spec_C3 ctxCached).2.mpr ⟨rfl, by decide⟩⟩

/-- C4: inside a `disableCaching` scope `cacheResults` is false; after the
scope guard runs, the cache-results bit and `inFunction` are exactly what
they were before the scope began, and if no frame was active at entry, no
frame remains on the stack after exit. -/
theorem disableCaching_scope_C4 (ctx : EvalContext) :
    cacheResults (disableCachingEnter ctx).2 = false ∧
    hasFlag (disableCachingExit (disableCachingEnter ctx).1
        (disableCachingEnter ctx).2).flags EvalFlags.CacheResults =
      hasFlag ctx.flags EvalFlags.CacheResults ∧
    inFunction (disableCachingExit (disableCachingEnter ctx).1
        (disableCachingEnter ctx).2) = inFunction ctx ∧
    (inFunction ctx = false →
      (disableCachingExit (disableCachingEnter ctx).1
        (disableCachingEnter ctx).2).stack = []) := by
  rcases hst : ctx.stack with _ | ⟨f, rest⟩ <;>
    rcases hF : hasFlag ctx.flags EvalFlags.CacheResults <;>
      simp [disableCachingEnter, disableCachingExit, inFunction, cacheResults,
            pushEmptyFrame, popFrame, hst, hF, hasFlag_setFlag_CR,
            hasFlag_clearFlag_CR]

/-- Witness for C4 at a concrete context with caching enabled and an empty
stack: after the scope, no frame remains. -/
theorem disableCaching_scope_C4_witness :
    (disableCachingExit (disableCachingEnter ctxCached).1
      (disableCachingEnter ctxCached).2).stack = [] :=
  (disableCaching_scope_C4 ctxCached).2.2.2 rfl

/-- `applyOps` distributes over list append. -/
theorem applyOps_append (ctx : EvalContext) (s t : List StackOp) :
    applyOps ctx (s ++ t) = applyOps (applyOps ctx s) t := by
  induction s generalizing ctx with
  | nil => rfl
  | cons op rest ih => simp [applyOps, ih]

/-- Any single stack operation grows the stack by at most one frame. -/
theorem applyOp_length_le (ctx : EvalContext) (op : StackOp) :
    (applyOp ctx op).stack.length ≤ ctx.stack.length + 1 := by
  cases op with
  | push s cl ll =>
    by_cases hd : ctx.stack.length ≥ ctx.maxDepth <;>
      simp [applyOp, pushFrame, hd, addDiag]
  | pushEmpty => simp [applyOp, pushEmptyFrame]
  | pop =>
    simp [applyOp, popFrame, List.length_tail]
    omega

/-- `popFrame` shrinks the stack by one frame (to zero on an empty stack). -/
theorem popFrame_length (ctx : EvalContext) :
    (popFrame ctx).stack.length = ctx.stack.length - 1 := by
  simp [popFrame, List.length_tail]

/-- A balanced operation sequence never leaves the stack deeper than it
started. -/
theorem balanced_length_le (ops : List StackOp) (hb : Balanced ops) :
    ∀ ctx : EvalContext, (applyOps ctx ops).stack.length ≤ ctx.stack.length := by
  induction hb with
  | nil => intro ctx; exact le_refl _
  | wrap op s hop hs ih =>
    intro ctx
    have h1 : applyOps ctx (op :: s ++ [StackOp.pop]) =
        popFrame (applyOps (applyOp ctx op) s) := by
      show applyOps (applyOp ctx op) (s ++ [StackOp.pop]) = _
      rw [applyOps_append]
      rfl
    rw [h1, popFrame_length]
    have h2 := ih (applyOp ctx op)
    have h3 := applyOp_length_le ctx op
    omega
  | append s t hs ht ihs iht =>
    intro ctx
    rw [applyOps_append]
    exact le_trans (iht _) (ihs ctx)

/-- C5: `inFunction` is true iff the frame stack is non-empty, and for any
balanced sequence of push/pop operations starting from an empty stack,
`inFunction` is false before the first push and false again after the last
pop. -/
theorem inFunction_balanced_C5 (ctx : EvalContext) (ops : List StackOp)
    (hb : Balanced ops) (h : ctx.stack = []) :
    inFunction ctx = false ∧
    inFunction (applyOps ctx ops) = false ∧
    (∀ c : EvalContext, inFunction c = true ↔ c.stack ≠ []) := by
  refine ⟨by simp [inFunction, h], ?_, ?_⟩
  · have hl := balanced_length_le ops hb ctx
    rw [h] at hl
    simp only [List.length_nil, Nat.le_zero] at hl
    have hnil : (applyOps ctx ops).stack = [] := List.eq_nil_of_length_eq_zero hl
    simp [inFunction, hnil]
  · intro c
    simp [inFunction, List.isEmpty_iff]

/-- Witness for C5: a balanced push/pop pair on an empty-stack context ends
outside any function. -/
theorem inFunction_balanced_C5_witness :
    inFunction (applyOps ctxEmpty [StackOp.pushEmpty, StackOp.pop]) = false :=
  (inFunction_balanced_C5 ctxEmpty _
    (Balanced.wrap StackOp.pushEmpty [] rfl Balanced.nil) rfl).2.1

/-- C6: evaluating an unbounded literal with no queue target fails with a
diagnostic and an invalid value unless the allow-placeholder flag is set,
in which case it evaluates to the distinguished placeholder value and the
context (diagnostics included) is untouched. -/
theorem unbounded_no_target_C6 (ctx : EvalContext) (loc : SourceLocation)
    (h : getQueueTarget ctx = none) :
    (hasFlag ctx.flags EvalFlags.AllowUnboundedPlaceholder = false →
      (evalUnboundedLiteral loc ctx).1 = ConstantValue.invalid ∧
      (evalUnboundedLiteral loc ctx).2.diags =
        ctx.diags ++ [⟨DiagCode.constEvalUnboundedNotAllowed, loc⟩]) ∧
    (hasFlag ctx.flags EvalFlags.AllowUnboundedPlaceholder = true →
      (evalUnboundedLiteral loc ctx).1 = ConstantValue.unboundedPlaceholder ∧
      (evalUnboundedLiteral loc ctx).2 = ctx) := by
  constructor <;> intro hf <;>
    simp [evalUnboundedLiteral, h, hf, addDiag]

/-- Witness for C6 at concrete contexts with no queue target: without the
flag the result is invalid; with it, the placeholder. -/
theorem unbounded_no_target_C6_witness :
    (evalUnboundedLiteral 7 ctxEmpty).1 = ConstantValue.invalid ∧
    (evalUnboundedLiteral 7 ctxPlaceholder).1 = ConstantValue.unboundedPlaceholder :=
  ⟨((unbounded_no_target_C6 ctxEmpty 7 rfl).1 (by decide)).1,
   ((unbounded_no_target_C6 ctxPlaceholder 7 rfl).2 (by decide)).1⟩

/-- Looking up a symbol just inserted into an association list finds its
value. -/
theorem lookupLocal_insertLocal_self (s : Symbol) (v : ConstantValue)
    (l : List (Symbol × ConstantValue)) :
    lookupLocal s (insertLocal s v l) = some v := by
  induction l with
  | nil => simp [insertLocal, lookupLocal]
  | cons p rest ih =>
    obtain ⟨s', v'⟩ := p
    by_cases hs : s' = s <;> simp [insertLocal, lookupLocal, hs, ih]

/-- C7: a local created in the current scope is found there, but once a
different, more deeply nested frame is current (pushed empty or via a
successful `pushFrame`), `findLocal` for the same symbol returns the
not-found signal — only the innermost frame's storage is searched. -/
theorem findLocal_innermost_C7 (ctx : EvalContext) (s : Symbol)
    (v : ConstantValue) (sub : Symbol) (cl : SourceLocation) (ll : LookupLoc) :
    findLocal s (createLocal s v ctx) = some v ∧
    findLocal s (pushEmptyFrame (createLocal s v ctx)) = none ∧
    ((pushFrame sub cl ll (createLocal s v ctx)).1 = true →
      findLocal s (pushFrame sub cl ll (createLocal s v ctx)).2 = none) := by
  refine ⟨?_, rfl, ?_⟩
  · cases hst : ctx.stack with
    | nil => simp [createLocal, findLocal, hst, lookupLocal_insertLocal_self]
    | cons fr rest => simp [createLocal, findLocal, hst, lookupLocal_insertLocal_self]
  · intro hp
    by_cases hd : (createLocal s v ctx).stack.length ≥ (createLocal s v ctx).maxDepth
    · simp [pushFrame, hd] at hp
    · simp [pushFrame, hd, findLocal, lookupLocal]

/-- Witness for C7: after creating a local at top level and successfully
pushing a frame, the local is not visible. -/
theorem findLocal_innermost_C7_witness :
    findLocal 0 (pushFrame 1 0 0 (createLocal 0 (ConstantValue.intVal 5) ctxEmpty)).2 = none :=
  (findLocal_innermost_C7 ctxEmpty 0 (ConstantValue.intVal 5) 1 0 0).2.2 (by decide)

/-- C8: after `setDisableTarget B R`, `getDisableTarget` and
`getDisableRange` return exactly `B` and `R`; after clearing with a null
target and an empty range, both return none/empty. -/
theorem disableTarget_roundtrip_C8 (ctx : EvalContext) (b : Symbol)
    (r : SourceRange) :
    getDisableTarget (setDisableTarget (some b) r ctx) = some b ∧
    getDisableRange (setDisableTarget (some b) r ctx) = r ∧
    getDisableTarget
      (setDisableTarget none SourceRange.empty
        (setDisableTarget (some b) r ctx)) = none ∧
    getDisableRange
      (setDisableTarget none SourceRange.empty
        (setDisableTarget (some b) r ctx)) = SourceRange.empty :=
  ⟨rfl, rfl, rfl, rfl⟩

/-- C9: `pushEmptyFrame` always succeeds, at any current depth, with no
failure signal and no diagnostic; afterwards `inFunction` is true and the
top frame has no subroutine identity. -/
theorem pushEmptyFrame_spec_C9 (ctx : EvalContext) :
    inFunction (pushEmptyFrame ctx) = true ∧
    (pushEmptyFrame ctx).stack.length = ctx.stack.length + 1 ∧
    (pushEmptyFrame ctx).diags = ctx.diags ∧
    topFrame? (pushEmptyFrame ctx) = some {} ∧
    (topFrame? (pushEmptyFrame ctx)).map Frame.subroutine = some none :=
  ⟨rfl, rfl, rfl, rfl, rfl⟩

/-- C10: `setDisableTarget` overwrites exactly the disable-target and
disable-range slots with its arguments and leaves the frame stack, l-value
stack, step counter, diagnostics, queue target, flags and top-level scope
unchanged; in particular a null target with a non-empty range leaves that
range observable through `getDisableRange`. -/
theorem setDisableTarget_effect_C10 (ctx : EvalContext) (t : Option Symbol)
    (r : SourceRange) :
    (setDisableTarget t r ctx).disableTarget = t ∧
    (setDisableTarget t r ctx).disableRange = r ∧
    (setDisableTarget t r ctx).stack = ctx.stack ∧
    (setDisableTarget t r ctx).lvalStack = ctx.lvalStack ∧
    (setDisableTarget t r ctx).steps = ctx.steps ∧
    (setDisableTarget t r ctx).diags = ctx.diags ∧
    (setDisableTarget t r ctx).queueTarget = ctx.queueTarget ∧
    (setDisableTarget t r ctx).flags = ctx.flags ∧
    (setDisableTarget t r ctx).topLevel = ctx.topLevel ∧
    getDisableTarget (setDisableTarget none r ctx) = none ∧
    getDisableRange (setDisableTarget none r ctx) = r :=
  ⟨rfl, rfl, rfl, rfl, rfl, rfl, rfl, rfl, rfl, rfl, rfl⟩

end SlangEval
